import Mathlib

/-!
# Verification of the Excel viewer's data-shaping logic

A shallow embedding of the client-side spreadsheet viewer
(`src/app/page.tsx` and its extended revision `src/unnamed/part_000`):
the workbook-parsing alignment step, the column-type classifier
(`columnTypes`), the row processor (`processedRows`: search filter and
sort), the chart aggregator (`chartData`), and the view-state machine
(`handleFileChange`, `toggleSort`, the sheet-change reset effects).

Modelling conventions:
* JavaScript numbers are modelled as exact rationals (`ℚ`); NaN is
  modelled by `Option ℚ` with `none` for NaN.
* `Number(x)` conversion is modelled by `jsNumber` / `parseJsNumber`,
  covering the decimal `StrDecimalLiteral` forms (optional sign, digits,
  fraction, exponent), whitespace trimming, `Number("") = 0` and
  `Number(null) = 0`.  Hexadecimal/`Infinity` literals are not modelled.
* `new Date(s)` validity is implementation-defined beyond the ISO 8601
  format, so the classifier takes the date predicate as a parameter
  `dateValid`; `jsDateValid` is a concrete instance modelling the
  ECMAScript-mandated `YYYY-MM-DD` subset (everything else invalid).
* `Array.prototype.sort` is modelled by the stable `List.mergeSort`
  with `le a b := comparator a b ≤ 0`, matching the ECMAScript stable
  sort for consistent comparators.
* A cell is a string, a number, or the absent marker (`null`); the raw
  parser output additionally has `undefined` holes, modelled by
  `Option`.
-/

namespace ExcelUI

/-- A cell value of a parsed sheet: `string | number | null`
(`null` is the explicit absent marker). -/
inductive Cell where
  | str (s : String)
  | num (q : ℚ)
  | absent
deriving DecidableEq

/-- ASCII whitespace recognised by the trimming model. -/
def isWs (c : Char) : Bool :=
  c = ' ' || c = '\t' || c = '\n' || c = '\r'

/-- Model of `String.prototype.trim`: strip leading and trailing
whitespace. -/
def jsTrim (s : String) : String :=
  String.mk (((s.data.dropWhile isWs).reverse.dropWhile isWs).reverse)

/-- Model of `String.prototype.toLowerCase` (ASCII case folding). -/
def jsToLower (s : String) : String :=
  String.mk (s.data.map Char.toLower)

/-- Decimal digits of a fraction remainder `r / d`, fuel-bounded
(used to model the finite decimal notation JavaScript prints for
non-integer numbers). -/
def fracDigits : Nat → Nat → Nat → String
  | 0, _, _ => ""
  | _, 0, _ => ""
  | fuel + 1, r, d => toString (r * 10 / d) ++ fracDigits fuel (r * 10 % d) d

/-- Model of JavaScript number-to-string conversion, exact on integers
(the only case the repository's data exercises in the claims). -/
def jsNumToString (q : ℚ) : String :=
  let sign := if q < 0 then "-" else ""
  let n := q.num.natAbs
  let d := q.den
  if d = 1 then sign ++ toString n
  else sign ++ toString (n / d) ++ "." ++ fracDigits d (n % d) d

/-- Value of a digit list read in base 10. -/
def digitsVal (ds : List Char) : Nat :=
  ds.foldl (fun a c => 10 * a + (c.toNat - 48)) 0

/-- Parse an optionally signed digit string (exponent part). -/
def parseSignedDigits (cs : List Char) : Option Int :=
  match cs with
  | '+' :: rest =>
      if rest ≠ [] ∧ rest.all Char.isDigit then some (digitsVal rest) else none
  | '-' :: rest =>
      if rest ≠ [] ∧ rest.all Char.isDigit then some (-(digitsVal rest : Int)) else none
  | rest =>
      if rest ≠ [] ∧ rest.all Char.isDigit then some (digitsVal rest) else none

/-- Parse the optional exponent suffix; the whole rest must be consumed. -/
def parseExpPart (cs : List Char) : Option Int :=
  match cs with
  | [] => some 0
  | 'e' :: rest => parseSignedDigits rest
  | 'E' :: rest => parseSignedDigits rest
  | _ => none

/-- Parse an unsigned decimal mantissa, returning its value and the
unconsumed rest. -/
def parseMantissa (cs : List Char) : Option (ℚ × List Char) :=
  let intPart := cs.takeWhile Char.isDigit
  let rest := cs.dropWhile Char.isDigit
  match rest with
  | '.' :: rest2 =>
      let frac := rest2.takeWhile Char.isDigit
      let rest3 := rest2.dropWhile Char.isDigit
      if intPart.isEmpty ∧ frac.isEmpty then none
      else some ((digitsVal intPart : ℚ) + (digitsVal frac : ℚ) / (10 : ℚ) ^ frac.length, rest3)
  | _ => if intPart.isEmpty then none else some ((digitsVal intPart : ℚ), rest)

/-- Parse an unsigned decimal literal with optional exponent. -/
def parseUnsignedJs (cs : List Char) : Option ℚ :=
  match parseMantissa cs with
  | none => none
  | some (m, rest) =>
      match parseExpPart rest with
      | none => none
      | some e =>
          some (if 0 ≤ e then m * (10 : ℚ) ^ e.toNat else m / (10 : ℚ) ^ (-e).toNat)

/-- Model of JavaScript `Number(s)` on a string: `none` is NaN.
Whitespace is trimmed and the empty string converts to `0`. -/
def parseJsNumber (s : String) : Option ℚ :=
  let t := jsTrim s
  if t = "" then some 0
  else
    match t.data with
    | '+' :: rest => parseUnsignedJs rest
    | '-' :: rest => (parseUnsignedJs rest).map Neg.neg
    | cs => parseUnsignedJs cs

/-- Model of JavaScript `Number(v)` on a cell: numbers convert to
themselves, `Number(null) = 0`, strings are parsed. -/
def jsNumber : Cell → Option ℚ
  | Cell.str s => parseJsNumber s
  | Cell.num q => some q
  | Cell.absent => some 0

/-- Model of JavaScript `Number(v)` on a possibly-`undefined` value:
`Number(undefined)` is NaN. -/
def jsNumberU : Option Cell → Option ℚ
  | none => none
  | some c => jsNumber c

/-- Model of JavaScript `String(v)` on a cell (`String(null) = "null"`). -/
def jsString : Cell → String
  | Cell.str s => s
  | Cell.num q => jsNumToString q
  | Cell.absent => "null"

/-- String form used by the search filter: `(cell ?? "").toString()`,
so the absent marker becomes the empty string. -/
def cellSearchStr : Cell → String
  | Cell.str s => s
  | Cell.num q => jsNumToString q
  | Cell.absent => ""

/-- Concrete instance of the `new Date(s)` validity test: the
ECMAScript-mandated ISO `YYYY-MM-DD` date-only form with month `01`-`12`
and day `01`-`31`; all other (implementation-defined) formats are
conservatively invalid. -/
def jsDateValid (s : String) : Bool :=
  match s.data with
  | [y1, y2, y3, y4, '-', m1, m2, '-', d1, d2] =>
      y1.isDigit && y2.isDigit && y3.isDigit && y4.isDigit &&
      m1.isDigit && m2.isDigit && d1.isDigit && d2.isDigit &&
      1 ≤ digitsVal [m1, m2] && digitsVal [m1, m2] ≤ 12 &&
      1 ≤ digitsVal [d1, d2] && digitsVal [d1, d2] ≤ 31
  | _ => false

/-! ## Workbook parsing (`handleFileChange`, alignment step) -/

/-- A parsed sheet (`type ParsedSheet`). -/
structure ParsedSheet where
  name : String
  headers : List String
  rows : List (List Cell)
deriving DecidableEq

/-- `String(h ?? "")` on a raw cell (`none` = `undefined` hole). -/
def rawCellString : Option Cell → String
  | some (Cell.str s) => s
  | some (Cell.num q) => jsNumToString q
  | some Cell.absent => ""
  | none => ""

/-- `row[index] ?? null` on a raw row: both `undefined` (missing cell)
and `null` become the absent marker. -/
def alignCell (row : List (Option Cell)) (i : Nat) : Cell :=
  match row.get? i with
  | some (some c) => c
  | _ => Cell.absent

/-- The per-sheet transformation of `handleFileChange`: row 0 becomes
the trimmed string headers, every later row is re-aligned to the header
length (missing cells filled with the absent marker, extra cells
dropped). -/
def parseSheet (name : String) (sheetData : List (List (Option Cell))) : ParsedSheet :=
  let headers := (sheetData.head?.getD []).map (fun h => jsTrim (rawCellString h))
  let rows := (sheetData.drop 1).map (fun row =>
    (List.range headers.length).map (fun i => alignCell row i))
  ⟨name, headers, rows⟩

/-! ## Column type classifier (`columnTypes`) -/

inductive ColumnType where
  | numeric | categorical | date | unknown
deriving DecidableEq

/-- The filter `v !== null && v !== undefined && v !== ""` applied to a
column's cells. -/
def keepValue : Cell → Bool
  | Cell.absent => false
  | Cell.str s => s ≠ ""
  | Cell.num _ => true

/-- One iteration of the classifier's loop: accumulates
`(numericCount, dateCount, unique)`; the unique set is modelled as an
insertion-ordered duplicate-free list (JS `Set`). -/
def classifyStep (dateValid : String → Bool) (acc : Nat × Nat × List String) (val : Cell) :
    Nat × Nat × List String :=
  let s := jsTrim (jsString val)
  let uniq := if s ∈ acc.2.2 then acc.2.2 else acc.2.2 ++ [s]
  let numeric := if (parseJsNumber s).isSome ∧ s ≠ "" then acc.1 + 1 else acc.1
  let date := if dateValid s then acc.2.1 + 1 else acc.2.1
  (numeric, date, uniq)

/-- The classifier for one column (`columnTypes`'s body for `colIdx`),
parameterised by the environment's date-parsing predicate. -/
def classifyColumn (dateValid : String → Bool) (col : List Cell) : ColumnType :=
  let colValues := col.filter keepValue
  if colValues.isEmpty then ColumnType.unknown
  else
    let acc := colValues.foldl (classifyStep dateValid) (0, 0, [])
    let total := colValues.length
    if (acc.2.1 : ℚ) / total > 3 / 5 then ColumnType.date
    else if (acc.1 : ℚ) / total > 3 / 5 then ColumnType.numeric
    else if acc.2.2.length ≤ min 20 total then ColumnType.categorical
    else ColumnType.unknown

/-- The per-sheet classifier: one label per header column. -/
def columnTypes (dateValid : String → Bool) (sheet : ParsedSheet) : List ColumnType :=
  (List.range sheet.headers.length).map (fun i =>
    classifyColumn dateValid (sheet.rows.map (fun r => (r.get? i).getD Cell.absent)))

/-! ## Row processor (`processedRows`): search filter and sort -/

/-- Whether the first character list is a leading segment of the
second. -/
def startsWithChars : List Char → List Char → Bool
  | [], _ => true
  | _ :: _, [] => false
  | c :: cs, h :: hs => c = h && startsWithChars cs hs

/-- Whether the needle occurs contiguously in the haystack, modelling
`String.prototype.includes`. -/
def includesChars (needle : List Char) : List Char → Bool
  | [] => needle.isEmpty
  | h :: hs => startsWithChars needle (h :: hs) || includesChars needle hs

/-- Whether the second character list is a trailing segment of the
first, modelling `String.prototype.endsWith`. -/
def endsWithChars (s suff : List Char) : Bool :=
  startsWithChars suff.reverse s.reverse

/-- One cell's search test:
`(cell ?? "").toString().toLowerCase().includes(q)` with `q` the
lowercased query. -/
def cellMatches (q : String) (cell : Cell) : Bool :=
  includesChars q.data (jsToLower (cellSearchStr cell)).data

/-- The search filter: applied only when the query's trim is nonempty
(`if (searchQuery.trim())`); a row is kept when some cell matches the
lowercased query as a substring. -/
def searchFilter (query : String) (rows : List (List Cell)) : List (List Cell) :=
  if jsTrim query = "" then rows
  else rows.filter (fun row => row.any (cellMatches (jsToLower query)))

inductive SortDir where
  | asc | desc
deriving DecidableEq

/-- Sign of a rational, modelling that the sorter only uses the sign of
`aNum - bNum`. -/
def qsign (x : ℚ) : Int :=
  if x < 0 then -1 else if x = 0 then 0 else 1

/-- The comparator's body on the two compared cell values: the `null`
checks first (the absent constructor is exactly the `aVal == null`
case), then numeric comparison when both convert to numbers, else
case-insensitive string comparison. -/
def cellCompare (dir : SortDir) : Cell → Cell → Int
  | Cell.absent, Cell.absent => 0
  | Cell.absent, _ => if dir = SortDir.asc then -1 else 1
  | _, Cell.absent => if dir = SortDir.asc then 1 else -1
  | aVal, bVal =>
      match jsNumber aVal, jsNumber bVal with
      | some x, some y => if dir = SortDir.asc then qsign (x - y) else qsign (y - x)
      | _, _ =>
          let aStr := jsToLower (jsString aVal)
          let bStr := jsToLower (jsString bVal)
          if aStr = bStr then 0
          else if dir = SortDir.asc then (if aStr < bStr then -1 else 1)
          else (if aStr > bStr then -1 else 1)

/-- The sort comparator of `processedRows` for a fixed direction and
column index.  Out-of-range access (`undefined`) is conflated with the
absent marker, as in the source's loose `aVal == null` test. -/
def rowCompare (dir : SortDir) (ci : Nat) (a b : List Cell) : Int :=
  cellCompare dir ((a.get? ci).getD Cell.absent) ((b.get? ci).getD Cell.absent)

/-- `rows.sort(comparator)` modelled as the stable merge sort with
`le a b := comparator(a, b) ≤ 0`. -/
def sortRows (dir : SortDir) (ci : Nat) (rows : List (List Cell)) : List (List Cell) :=
  rows.mergeSort (fun a b => rowCompare dir ci a b ≤ 0)

/-- The full row processor: filter by the search query, then sort when
both a sort column and a direction are set. -/
def processedRows (sheet : ParsedSheet) (query : String)
    (sortCol : Option Nat) (sortDir : Option SortDir) : List (List Cell) :=
  let rows := searchFilter query sheet.rows
  match sortCol, sortDir with
  | some ci, some dir => sortRows dir ci rows
  | _, _ => rows

/-! ## Chart aggregator (`chartData`) -/

/-- `groupMap.set(key, (groupMap.get(key) ?? 0) + num)` on an
insertion-ordered association list (JS `Map`). -/
def mapInsertAdd : List (String × ℚ) → String → ℚ → List (String × ℚ)
  | [], k, v => [(k, v)]
  | (k0, v0) :: rest, k, v =>
      if k0 = k then (k0, v0 + v) :: rest else (k0, v0) :: mapInsertAdd rest k v

/-- One iteration of the aggregation loop: skip when the category cell
is `undefined`/`null`/`""` or `Number(valRaw)` is NaN, else accumulate
into the group map. -/
def chartStep (ci vi : Nat) (m : List (String × ℚ)) (row : List Cell) : List (String × ℚ) :=
  match row.get? ci with
  | none => m
  | some Cell.absent => m
  | some catC =>
      if catC = Cell.str "" then m
      else
        match jsNumberU (row.get? vi) with
        | none => m
        | some n => mapInsertAdd m (jsString catC) n

/-- The stable comparison used on the entries:
`(a, b) => b.value - a.value`, i.e. `a` may stay before `b` iff
`b.value ≤ a.value`. -/
def chartLe (a b : String × ℚ) : Bool := b.2 ≤ a.2

/-- The chart aggregator: single pass accumulating per-category sums,
then sort descending by sum and keep the top 25 entries. -/
def chartData (rows : List (List Cell)) (ci vi : Nat) : List (String × ℚ) :=
  let groupMap := rows.foldl (chartStep ci vi) []
  (groupMap.mergeSort chartLe).take 25

/-! ## View state machine (`src/unnamed/part_000`) -/

inductive TabId where
  | table | insights
deriving DecidableEq

/-- The component's state hooks. -/
structure AppState where
  sheets : List ParsedSheet
  activeSheetIndex : Nat
  fileName : Option String
  error : Option String
  searchQuery : String
  sortColumnIndex : Option Nat
  sortDirection : Option SortDir
  columnVisibility : List Bool
  activeTab : TabId
  chartCategoryIndex : Option Nat
  chartValueIndex : Option Nat
deriving DecidableEq

/-- The initial `useState` values. -/
def initState : AppState :=
  ⟨[], 0, none, none, "", none, none, [], TabId.table, none, none⟩

/-- `sheets[activeSheetIndex]` (may be `undefined`). -/
def activeSheet (st : AppState) : Option ParsedSheet :=
  st.sheets.get? st.activeSheetIndex

/-- The sheet-change reset effect (deps `[activeSheetIndex,
sheets.length]`): clears search, sort, tab and chart axes and marks all
columns of the now-active sheet visible. -/
def resetEffect (st : AppState) : AppState :=
  { st with
    columnVisibility :=
      match activeSheet st with
      | some sh => List.replicate sh.headers.length true
      | none => []
    searchQuery := ""
    sortColumnIndex := none
    sortDirection := none
    activeTab := TabId.table
    chartCategoryIndex := none
    chartValueIndex := none }

/-- The default-chart-axes effect (deps `[activeSheet, columnTypes]`):
picks the first categorical column as the category axis and the first
numeric column as the value axis (`findIndex`, `null` when absent). -/
def axesEffect (dateValid : String → Bool) (st : AppState) : AppState :=
  match activeSheet st with
  | none => st
  | some sh =>
      let types := columnTypes dateValid sh
      if types.isEmpty then st
      else
        { st with
          chartCategoryIndex := types.findIdx? (· = ColumnType.categorical)
          chartValueIndex := types.findIdx? (· = ColumnType.numeric) }

/-- Clicking a sheet button (`setActiveSheetIndex`).  When the index
actually changes, the reset effect's dependencies change, so it runs,
followed by the axes effect (whose `activeSheet` dependency changed).
Setting the same index is a no-op (React bails out on identical
state). -/
def selectSheet (dateValid : String → Bool) (st : AppState) (i : Nat) : AppState :=
  if i = st.activeSheetIndex then st
  else axesEffect dateValid (resetEffect { st with activeSheetIndex := i })

/-- The client-side extension check of `handleFileChange`
(case-sensitive suffix match). -/
def extOk (name : String) : Bool :=
  endsWithChars name.data ".xlsx".data || endsWithChars name.data ".xls".data ||
    endsWithChars name.data ".csv".data

/-- Outcome of the asynchronous read+parse of the selected file: the
raw workbook (sheet names with raw 2D cell arrays), or a failure
(unreadable content or a parser exception). -/
inductive ReadOutcome where
  | ok (raw : List (String × List (List (Option Cell))))
  | failure

def unsupportedMsg : String := "Please upload an Excel (.xlsx / .xls) or CSV file."

def parseFailMsg : String := "Failed to parse file. Please check the file format."

/-- `handleFileChange` followed by the completed read, including the
React effects triggered by the state updates.  The reset effect reruns
only when its dependency pair `(activeSheetIndex, sheets.length)`
changed; the axes effect reruns whenever the active sheet object
changed, which a successful load always causes (modelled by applying
`axesEffect`, which is the identity when no sheet is active). -/
def handleFileSelect (dateValid : String → Bool) (st : AppState)
    (file : Option String) (read : ReadOutcome) : AppState :=
  match file with
  | none => { st with error := none }
  | some name =>
      if ¬ extOk name then { st with error := some unsupportedMsg }
      else
        let st1 := { st with error := none, fileName := some name }
        match read with
        | ReadOutcome.failure => { st1 with error := some parseFailMsg }
        | ReadOutcome.ok raw =>
            let parsed := raw.map (fun nd => parseSheet nd.1 nd.2)
            let st2 := { st1 with sheets := parsed, activeSheetIndex := 0 }
            let st3 :=
              if st.activeSheetIndex = 0 ∧ st.sheets.length = parsed.length
              then st2 else resetEffect st2
            axesEffect dateValid st3

/-- Clicking a column header (`toggleSort`): cycles
ascending → descending → unsorted on the current sort column, and
starts ascending on any other column. -/
def toggleSort (st : AppState) (i : Nat) : AppState :=
  if st.sortColumnIndex = some i then
    if st.sortDirection = some SortDir.asc then
      { st with sortDirection := some SortDir.desc }
    else if st.sortDirection = some SortDir.desc then
      { st with sortColumnIndex := none, sortDirection := none }
    else
      { st with sortDirection := some SortDir.asc }
  else
    { st with sortColumnIndex := some i, sortDirection := some SortDir.asc }

/-- Toggling a column's visibility checkbox (`toggleColumn`). -/
def toggleColumn (st : AppState) (i : Nat) : AppState :=
  if st.columnVisibility.isEmpty then st
  else
    { st with
      columnVisibility :=
        st.columnVisibility.set i (! st.columnVisibility.getD i false) }

/-- The "Show all" columns button. -/
def showAllColumns (st : AppState) : AppState :=
  match activeSheet st with
  | some sh => { st with columnVisibility := List.replicate sh.headers.length true }
  | none => { st with columnVisibility := [] }

/-- One user interaction and its reactive consequences. -/
inductive Step (dateValid : String → Bool) : AppState → AppState → Prop
  | selectSheet (st : AppState) (i : Nat) : Step dateValid st (selectSheet dateValid st i)
  | fileChange (st : AppState) (file : Option String) (read : ReadOutcome) :
      Step dateValid st (handleFileSelect dateValid st file read)
  | setSearch (st : AppState) (q : String) : Step dateValid st { st with searchQuery := q }
  | toggleSortStep (st : AppState) (i : Nat) : Step dateValid st (toggleSort st i)
  | toggleColumnStep (st : AppState) (i : Nat) : Step dateValid st (toggleColumn st i)
  | showAll (st : AppState) : Step dateValid st (showAllColumns st)
  | setTab (st : AppState) (t : TabId) : Step dateValid st { st with activeTab := t }
  | setCatAxis (st : AppState) (i : Nat) :
      Step dateValid st { st with chartCategoryIndex := some i }
  | setValAxis (st : AppState) (i : Nat) :
      Step dateValid st { st with chartValueIndex := some i }

/-- States reachable from the initial render. -/
inductive Reachable (dateValid : String → Bool) : AppState → Prop
  | init : Reachable dateValid initState
  | step {st st' : AppState} :
      Reachable dateValid st → Step dateValid st st' → Reachable dateValid st'

/-! ## Specification-level definitions

Independent formulations of what the spec sentences describe, to be
compared with the embedded code above. -/

/-- Append a key if it is not present yet (first-occurrence order). -/
def dedupStep (acc : List String) (k : String) : List String :=
  if k ∈ acc then acc else acc ++ [k]

/-- The distinct elements of a list, in order of first occurrence. -/
def firstDedup (l : List String) : List String :=
  l.foldl dedupStep []

/-- Whether an accessed category cell is present and not the empty
string (the aggregator's keep condition on the category side). -/
def validCat : Option Cell → Bool
  | some (Cell.str s) => s ≠ ""
  | some (Cell.num _) => true
  | _ => false

/-- A row contributes to the chart iff its category cell is present and
nonempty and its value cell converts to a number. -/
def validRow (ci vi : Nat) (row : List Cell) : Bool :=
  validCat (row.get? ci) && (jsNumberU (row.get? vi)).isSome

/-- The category key of a row: the category cell's string form. -/
def rowKey (ci : Nat) (row : List Cell) : String :=
  jsString ((row.get? ci).getD Cell.absent)

/-- The numeric contribution of a row. -/
def rowVal (vi : Nat) (row : List Cell) : ℚ :=
  (jsNumberU (row.get? vi)).getD 0

/-- `mapInsertAdd` folded over key-value pairs. -/
def insPair (m : List (String × ℚ)) (p : String × ℚ) : List (String × ℚ) :=
  mapInsertAdd m p.1 p.2

/-- The key-value pairs of the contributing rows, in row order. -/
def pairsOf (ci vi : Nat) (rows : List (List Cell)) : List (String × ℚ) :=
  (rows.filter (validRow ci vi)).map (fun r => (rowKey ci r, rowVal vi r))

/-- Sum of the values attached to one key. -/
def sumFor (l : List (String × ℚ)) (k : String) : ℚ :=
  ((l.filter (fun p => p.1 = k)).map Prod.snd).sum

/-- The group map described by the spec: one entry per distinct key in
first-occurrence order, carrying the sum of that key's values. -/
def assembled (l : List (String × ℚ)) : List (String × ℚ) :=
  (firstDedup (l.map Prod.fst)).map (fun k => (k, sumFor l k))

/-- The aggregation as the spec words it: for every distinct category
(string form, first-occurrence order) of a contributing row, the sum of
the numeric values of the contributing rows with that category. -/
def groupSums (rows : List (List Cell)) (ci vi : Nat) : List (String × ℚ) :=
  assembled (pairsOf ci vi rows)

/-- The trimmed string form a column value is classified through. -/
def trimmedForm (v : Cell) : String := jsTrim (jsString v)

/-- Whether a value counts toward `numericCount`
(`!Number.isNaN(Number(s)) && s !== ""`). -/
def numericTest (v : Cell) : Bool :=
  (parseJsNumber (trimmedForm v)).isSome && trimmedForm v ≠ ""

/-- Classifier as claim C2 words it, with the ratios computed over all
non-absent values (empty strings included in the totals).  Written from
the claim for comparison with `classifyColumn`; "parses as a number"
follows the JavaScript `Number` conversion, under which the empty
string parses (to `0`). -/
def claimClassify (dateValid : String → Bool) (col : List Cell) : ColumnType :=
  let vs := col.filter (fun v => v ≠ Cell.absent)
  if vs.isEmpty then ColumnType.unknown
  else
    let total := vs.length
    let dateCnt := vs.countP (fun v => dateValid (trimmedForm v))
    let numCnt := vs.countP (fun v => (parseJsNumber (trimmedForm v)).isSome)
    if (dateCnt : ℚ) / total > 3 / 5 then ColumnType.date
    else if (numCnt : ℚ) / total > 3 / 5 then ColumnType.numeric
    else if (firstDedup (vs.map trimmedForm)).length ≤ min 20 total then ColumnType.categorical
    else ColumnType.unknown

/-- Classifier as the amended claim words it: the population is the
non-absent, non-empty values; first match in the order date / numeric /
categorical / unknown; all values absent or empty gives unknown. -/
def specClassify (dateValid : String → Bool) (col : List Cell) : ColumnType :=
  let vs := col.filter keepValue
  if vs.isEmpty then ColumnType.unknown
  else
    let total := vs.length
    let dateCnt := vs.countP (fun v => dateValid (trimmedForm v))
    let numCnt := vs.countP numericTest
    if (dateCnt : ℚ) / total > 3 / 5 then ColumnType.date
    else if (numCnt : ℚ) / total > 3 / 5 then ColumnType.numeric
    else if (firstDedup (vs.map trimmedForm)).length ≤ min 20 total then ColumnType.categorical
    else ColumnType.unknown

/-- The default chart axis the axes effect computes for a possibly
absent sheet (category side). -/
def defaultCatAxis (dateValid : String → Bool) : Option ParsedSheet → Option Nat
  | none => none
  | some sh =>
      if (columnTypes dateValid sh).isEmpty then none
      else (columnTypes dateValid sh).findIdx? (· = ColumnType.categorical)

/-- The default chart axis the axes effect computes for a possibly
absent sheet (value side). -/
def defaultValAxis (dateValid : String → Bool) : Option ParsedSheet → Option Nat
  | none => none
  | some sh =>
      if (columnTypes dateValid sh).isEmpty then none
      else (columnTypes dateValid sh).findIdx? (· = ColumnType.numeric)

/-! ## Concrete data for the scenarios and counterexamples -/

/-- The Region/Amount sheet of the spec's scenarios. -/
def regionSheet : ParsedSheet :=
  ⟨"Sheet1", ["Region", "Amount"],
    [[Cell.str "East", Cell.num 10],
     [Cell.str "West", Cell.num 5],
     [Cell.str "East", Cell.num 3]]⟩

/-- The rows of the sort scenario: `[[null,1],["b",2],["a",3]]`. -/
def sortScenarioSheet : ParsedSheet :=
  ⟨"Sheet1", ["A", "B"],
    [[Cell.absent, Cell.num 1],
     [Cell.str "b", Cell.num 2],
     [Cell.str "a", Cell.num 3]]⟩

/-- 26 rows with 26 distinct categories, value 1 each: more categories
than the chart's top-25 cap. -/
def manyCatRows : List (List Cell) :=
  (List.range 26).map (fun i => [Cell.str (String.append "c" (toString i)), Cell.num 1])

/-- A column of two empty strings and three ISO dates: the code
classifies over the three dates only, the claim's ratio over all five
non-absent values. -/
def emptyPadDateCol : List Cell :=
  [Cell.str "", Cell.str "",
   Cell.str "2020-01-01", Cell.str "2020-01-02", Cell.str "2020-01-03"]

/-- Two rows with equal numeric sort keys but distinct payloads. -/
def tieRowP : List Cell := [Cell.num 1, Cell.str "p"]

/-- Second row of the tie pair. -/
def tieRowQ : List Cell := [Cell.num 1, Cell.str "q"]

/-- Three single-cell rows on which the comparator is cyclic: "2" is
below "10" numerically, "10" below "1a" as strings, yet "1a" below "2"
as strings. -/
def cycleRows : List (List Cell) :=
  [[Cell.str "2"], [Cell.str "10"], [Cell.str "1a"]]

/-- A one-sheet raw workbook (headers Region/Amount, one row). -/
def rawWorkbookA : List (String × List (List (Option Cell))) :=
  [("SheetA", [[some (Cell.str "Region"), some (Cell.str "Amount")],
               [some (Cell.str "East"), some (Cell.num 10)]])]

/-- A different one-sheet raw workbook with the same sheet count. -/
def rawWorkbookB : List (String × List (List (Option Cell))) :=
  [("SheetB", [[some (Cell.str "City"), some (Cell.str "Pop")],
               [some (Cell.str "Rome"), some (Cell.num 7)]])]

/-- State after loading workbook A from the initial state. -/
def loadedA : AppState :=
  handleFileSelect jsDateValid initState (some "a.xlsx") (ReadOutcome.ok rawWorkbookA)

/-- State after then typing "x" into the search box. -/
def loadedASearch : AppState :=
  { loadedA with searchQuery := "x" }

/-- State after then loading workbook B (same sheet count, sheet 0
active): the reset effect's dependencies are unchanged. -/
def loadedB : AppState :=
  handleFileSelect jsDateValid loadedASearch (some "b.xlsx") (ReadOutcome.ok rawWorkbookB)

/-! ## General helper lemmas -/

theorem mem_foldl_dedupStep : ∀ (l acc : List String) (x : String),
    x ∈ l.foldl dedupStep acc ↔ x ∈ acc ∨ x ∈ l
  | [], acc, x => by simp
  | k :: l, acc, x => by
      rw [List.foldl_cons, mem_foldl_dedupStep l (dedupStep acc k) x]
      unfold dedupStep
      by_cases h : k ∈ acc
      · rw [if_pos h]
        simp only [List.mem_cons]
        constructor
        · rintro (ha | hl)
          · exact Or.inl ha
          · exact Or.inr (Or.inr hl)
        · rintro (ha | rfl | hl)
          · exact Or.inl ha
          · exact Or.inl h
          · exact Or.inr hl
      · rw [if_neg h]
        simp only [List.mem_append, List.mem_singleton, List.mem_cons]
        tauto

theorem nodup_foldl_dedupStep : ∀ (l acc : List String), acc.Nodup →
    (l.foldl dedupStep acc).Nodup
  | [], _, h => h
  | k :: l, acc, h => by
      rw [List.foldl_cons]
      apply nodup_foldl_dedupStep l
      unfold dedupStep
      split
      · exact h
      · rw [List.nodup_append_comm, List.singleton_append, List.nodup_cons]
        exact ⟨by assumption, h⟩

theorem mem_firstDedup (l : List String) (x : String) : x ∈ firstDedup l ↔ x ∈ l := by
  unfold firstDedup
  rw [mem_foldl_dedupStep]
  simp

theorem nodup_firstDedup (l : List String) : (firstDedup l).Nodup :=
  nodup_foldl_dedupStep l [] List.nodup_nil

theorem firstDedup_append_singleton (l : List String) (x : String) :
    firstDedup (l ++ [x]) = dedupStep (firstDedup l) x := by
  unfold firstDedup
  rw [List.foldl_append]
  rfl

/-! ## Claim C8: unsupported file extensions -/

/-- C8: selecting a file whose name does not end (case-sensitively) in
`.xlsx`, `.xls` or `.csv` sets the unsupported-file-type error and
leaves the sheets and all view state unchanged; the outcome of the
(never-consulted) read is universally quantified, so no read or parse
influences the result.  `report.pdf` in particular is rejected. -/
theorem extension_reject (dateValid : String → Bool) (st : AppState) (name : String)
    (read : ReadOutcome) (h : extOk name = false) :
    handleFileSelect dateValid st (some name) read = { st with error := some unsupportedMsg } ∧
    extOk "report.pdf" = false := by
  refine ⟨?_, by decide⟩
  simp [handleFileSelect, h]

/-- Witness for C8 at the spec's scenario input. -/
theorem extension_reject_witness :
    handleFileSelect jsDateValid initState (some "report.pdf") ReadOutcome.failure =
      { initState with error := some unsupportedMsg } ∧
    extOk "report.pdf" = false :=
  extension_reject jsDateValid initState "report.pdf" ReadOutcome.failure (by decide)

/-! ## Claim C7: row/header alignment after parsing -/

/-- C7: after parsing, every row of every parsed sheet has exactly
`headers.length` cells; a raw cell that is a hole (`undefined`) or out
of range is filled with the absent marker, which is distinct from the
empty string; present raw cells are kept as they are; extra raw cells
beyond the header length are dropped because the aligned row's length
is the header count regardless of the raw row's length. -/
theorem parse_alignment (name : String) (sheetData : List (List (Option Cell))) :
    (∀ r ∈ (parseSheet name sheetData).rows, r.length = (parseSheet name sheetData).headers.length) ∧
    (∀ row : List (Option Cell), ∀ i : Nat, row.length ≤ i → alignCell row i = Cell.absent) ∧
    (∀ (row : List (Option Cell)) (i : Nat), row.get? i = some none → alignCell row i = Cell.absent) ∧
    (∀ (row : List (Option Cell)) (i : Nat) (c : Cell), row.get? i = some (some c) → alignCell row i = c) ∧
    Cell.absent ≠ Cell.str "" := by
  refine ⟨?_, ?_, ?_, ?_, by decide⟩
  · intro r hr
    simp only [parseSheet, List.mem_map] at hr
    rcases hr with ⟨row, _, rfl⟩
    simp [parseSheet]
  · intro row i hle
    unfold alignCell
    rw [List.get?_eq_none.mpr hle]
  · intro row i hget
    unfold alignCell
    rw [hget]
  · intro row i c hget
    unfold alignCell
    rw [hget]

/-- Witness for C7: a sheet with a short row (missing cell filled with
the absent marker) and a long row (extra cell dropped). -/
theorem parse_alignment_witness :
    (∀ r ∈ (parseSheet "S" [[some (Cell.str "H1"), some (Cell.str "H2")],
        [some (Cell.str "a")],
        [some (Cell.str "a"), some (Cell.str "b"), some (Cell.str "c")]]).rows,
      r.length = (parseSheet "S" [[some (Cell.str "H1"), some (Cell.str "H2")],
        [some (Cell.str "a")],
        [some (Cell.str "a"), some (Cell.str "b"), some (Cell.str "c")]]).headers.length) ∧
    alignCell [some (Cell.str "a")] 1 = Cell.absent :=
  ⟨(parse_alignment "S" _).1,
   (parse_alignment "S" [] ).2.1 [some (Cell.str "a")] 1 (by decide)⟩

/-! ## Claim C4: search filter -/

/-- C4: searching with the empty string returns the rows unchanged and
in order; filtering twice with the same query equals filtering once;
for a nonempty (after trimming) query a row is kept iff some cell of it
matches the lowercased query as a substring of the cell's lowercased
string form (absent cells read as the empty string, see
`cellSearchStr`); the lowercase query "east" keeps exactly the two
"East" rows of the Region/Amount sheet. -/
theorem search_properties :
    (∀ rows : List (List Cell), searchFilter "" rows = rows) ∧
    (∀ (q : String) (rows : List (List Cell)),
        searchFilter q (searchFilter q rows) = searchFilter q rows) ∧
    (∀ (q : String) (rows : List (List Cell)) (row : List Cell), jsTrim q ≠ "" →
        (row ∈ searchFilter q rows ↔
          row ∈ rows ∧ ∃ c ∈ row, cellMatches (jsToLower q) c = true)) ∧
    searchFilter "east" regionSheet.rows =
      [[Cell.str "East", Cell.num 10], [Cell.str "East", Cell.num 3]] := by
  refine ⟨?_, ?_, ?_, by decide⟩
  · intro rows
    simp [searchFilter, show jsTrim "" = "" from rfl]
  · intro q rows
    by_cases h : jsTrim q = ""
    · simp [searchFilter, h]
    · simp only [searchFilter, h, if_neg h, if_false]
      rw [List.filter_filter]
      congr 1
      funext r
      exact Bool.and_self _
  · intro q rows row h
    simp [searchFilter, h, List.mem_filter, List.any_eq_true]

/-- Witness for C4's conditional clause at the "east" scenario. -/
theorem search_properties_witness :
    [Cell.str "East", Cell.num 10] ∈ searchFilter "east" regionSheet.rows ↔
      [Cell.str "East", Cell.num 10] ∈ regionSheet.rows ∧
        ∃ c ∈ [Cell.str "East", Cell.num 10], cellMatches (jsToLower "east") c = true :=
  search_properties.2.2.1 "east" regionSheet.rows [Cell.str "East", Cell.num 10] (by decide)

/-! ## Claim C2: the column type classifier -/

theorem numericTest_iff (v : Cell) :
    numericTest v = true ↔
      ((parseJsNumber (jsTrim (jsString v))).isSome = true ∧ jsTrim (jsString v) ≠ "") := by
  simp [numericTest, trimmedForm]

theorem classifyStep_eq (dateValid : String → Bool) (n d : Nat) (u : List String) (v : Cell) :
    classifyStep dateValid (n, d, u) v =
      (if numericTest v = true then n + 1 else n,
       if dateValid (trimmedForm v) = true then d + 1 else d,
       dedupStep u (trimmedForm v)) := by
  unfold classifyStep dedupStep trimmedForm
  dsimp only
  simp only [Prod.mk.injEq]
  refine ⟨?_, trivial⟩
  by_cases h : (parseJsNumber (jsTrim (jsString v))).isSome = true ∧ jsTrim (jsString v) ≠ ""
  · rw [if_pos h, if_pos ((numericTest_iff v).mpr h)]
  · rw [if_neg h, if_neg (fun hh => h ((numericTest_iff v).mp hh))]

theorem foldl_classifyStep (dateValid : String → Bool) :
    ∀ (vs : List Cell) (n d : Nat) (u : List String),
      vs.foldl (classifyStep dateValid) (n, d, u) =
        (n + vs.countP numericTest,
         d + vs.countP (fun v => dateValid (trimmedForm v)),
         (vs.map trimmedForm).foldl dedupStep u)
  | [], n, d, u => by simp
  | v :: vs, n, d, u => by
      rw [List.foldl_cons, List.map_cons, List.foldl_cons, classifyStep_eq,
        foldl_classifyStep dateValid vs]
      simp only [List.countP_cons, Prod.mk.injEq]
      refine ⟨?_, ?_, trivial⟩
      · by_cases h : numericTest v = true <;> simp [h] <;> omega
      · by_cases h : dateValid (trimmedForm v) = true <;> simp [h] <;> omega

/-- The classifier agrees with the spec-level decision chain computed
over the filtered population. -/
theorem classify_eq_spec (dateValid : String → Bool) (col : List Cell) :
    classifyColumn dateValid col = specClassify dateValid col := by
  unfold classifyColumn specClassify firstDedup
  dsimp only
  rw [foldl_classifyStep]
  simp only [Nat.zero_add]

/-- C2 (corrected): the counterexample.  On a column of two empty
strings and three ISO dates, the code's classifier (which drops empty
strings from the population) sees a date ratio of `3/3` and returns
`date`, while the claim's ratios over all five non-absent values give
`dateRatio = 3/5 ≯ 0.6` and `numericRatio = 2/5 ≯ 0.6`, four distinct
values `≤ min(20, 5)`, hence `categorical`. -/
theorem classifier_population_cex :
    classifyColumn jsDateValid emptyPadDateCol = ColumnType.date ∧
    claimClassify jsDateValid emptyPadDateCol = ColumnType.categorical := by
  constructor <;> with_unfolding_all decide

/-- C2 (amended): the classifier computes `numericRatio` and
`dateRatio` over the column's non-absent, non-empty-string values and
returns the first match in the order: date if `dateRatio > 0.6`, else
numeric if `numericRatio > 0.6`, else categorical if the number of
distinct (trimmed string) values is at most `min(20, total)`, else
unknown; a column whose values are all absent or empty strings is
classified unknown. -/
theorem classifier_decision_order (dateValid : String → Bool) (col : List Cell) :
    classifyColumn dateValid col = specClassify dateValid col ∧
    ((∀ c ∈ col, c = Cell.absent ∨ c = Cell.str "") →
        classifyColumn dateValid col = ColumnType.unknown) := by
  refine ⟨classify_eq_spec dateValid col, ?_⟩
  intro h
  unfold classifyColumn
  have hnil : col.filter keepValue = [] := by
    rw [List.filter_eq_nil_iff]
    intro a ha
    rcases h a ha with rfl | rfl <;> simp [keepValue]
  rw [hnil]
  rfl

/-- Witness for C2's amended claim: an all-absent column is unknown and
the decision-chain agreement holds on a concrete mixed column. -/
theorem classifier_decision_order_witness :
    classifyColumn jsDateValid [Cell.absent, Cell.absent] = ColumnType.unknown ∧
    classifyColumn jsDateValid emptyPadDateCol = specClassify jsDateValid emptyPadDateCol :=
  ⟨(classifier_decision_order jsDateValid [Cell.absent, Cell.absent]).2 (by decide),
   (classifier_decision_order jsDateValid emptyPadDateCol).1⟩

/-! ## Claim C3: the sort comparator -/

theorem qsign_lt_iff (x : ℚ) : qsign x < 0 ↔ x < 0 := by
  unfold qsign
  split_ifs with h1 h2
  · simpa using h1
  · simp [h2]
  · constructor
    · intro h
      exact absurd h (by decide)
    · intro h
      exact absurd h h1

theorem qsign_eq_iff (x : ℚ) : qsign x = 0 ↔ x = 0 := by
  unfold qsign
  split_ifs with h1 h2
  · constructor
    · intro h
      exact absurd h (by decide)
    · intro h
      exact absurd (h ▸ h1) (by simp)
  · simp [h2]
  · constructor
    · intro h
      exact absurd h (by decide)
    · intro h
      exact absurd h h2

theorem strAsc_lt_iff (A B : String) :
    ((if A = B then (0 : Int)
      else if SortDir.asc = SortDir.asc then (if A < B then -1 else 1)
      else (if A > B then -1 else 1)) < 0) ↔ A < B := by
  by_cases heq : A = B
  · rw [if_pos heq, heq]
    simp
  · rw [if_neg heq, if_pos rfl]
    by_cases hlt : A < B
    · rw [if_pos hlt]
      exact ⟨fun _ => hlt, fun _ => by decide⟩
    · rw [if_neg hlt]
      exact ⟨fun h => absurd h (by decide), fun h => absurd h hlt⟩

theorem strAsc_eq_iff (A B : String) :
    ((if A = B then (0 : Int)
      else if SortDir.asc = SortDir.asc then (if A < B then -1 else 1)
      else (if A > B then -1 else 1)) = 0) ↔ A = B := by
  by_cases heq : A = B
  · rw [if_pos heq]
    simp [heq]
  · rw [if_neg heq, if_pos rfl]
    by_cases hlt : A < B
    · rw [if_pos hlt]
      exact ⟨fun h => absurd h (by decide), fun h => absurd h heq⟩
    · rw [if_neg hlt]
      exact ⟨fun h => absurd h (by decide), fun h => absurd h heq⟩

theorem strDesc_lt_iff (A B : String) :
    ((if A = B then (0 : Int)
      else if SortDir.desc = SortDir.asc then (if A < B then -1 else 1)
      else (if A > B then -1 else 1)) < 0) ↔ B < A := by
  by_cases heq : A = B
  · rw [if_pos heq, heq]
    simp
  · rw [if_neg heq, if_neg (by decide)]
    by_cases hlt : A > B
    · rw [if_pos hlt]
      exact ⟨fun _ => hlt, fun _ => by decide⟩
    · rw [if_neg hlt]
      exact ⟨fun h => absurd h (by decide), fun h => absurd h hlt⟩

/-- For two present cells the comparator reduces to the numeric or
string comparison depending on both `Number` conversions. -/
theorem cellCompare_not_absent (dir : SortDir) (a b : Cell)
    (ha : a ≠ Cell.absent) (hb : b ≠ Cell.absent) :
    cellCompare dir a b =
      (match jsNumber a, jsNumber b with
       | some x, some y => if dir = SortDir.asc then qsign (x - y) else qsign (y - x)
       | _, _ =>
           if jsToLower (jsString a) = jsToLower (jsString b) then 0
           else if dir = SortDir.asc then
             (if jsToLower (jsString a) < jsToLower (jsString b) then -1 else 1)
           else (if jsToLower (jsString a) > jsToLower (jsString b) then -1 else 1)) := by
  rcases a with s | q | _
  · rcases b with t | r | _
    · rfl
    · rfl
    · exact absurd rfl hb
  · rcases b with t | r | _
    · rfl
    · rfl
    · exact absurd rfl hb
  · exact absurd rfl ha

/-- C3: the sort comparator compares absent cells equal, puts an absent
cell before a present one ascending and after it descending, compares
numerically when both cells convert to numbers, and otherwise compares
the lowercased string forms lexicographically; sorting the scenario
rows `[[null,1],["b",2],["a",3]]` by column 0 ascending puts the
absent-valued row first, then the "a" row, then the "b" row. -/
theorem sort_comparator_spec :
    (∀ (dir : SortDir) (ci : Nat) (a b : List Cell),
        rowCompare dir ci a b =
          cellCompare dir ((a.get? ci).getD Cell.absent) ((b.get? ci).getD Cell.absent)) ∧
    (∀ dir : SortDir, cellCompare dir Cell.absent Cell.absent = 0) ∧
    (∀ b : Cell, b ≠ Cell.absent →
        cellCompare SortDir.asc Cell.absent b = -1 ∧
        cellCompare SortDir.desc Cell.absent b = 1 ∧
        cellCompare SortDir.asc b Cell.absent = 1 ∧
        cellCompare SortDir.desc b Cell.absent = -1) ∧
    (∀ (a b : Cell) (x y : ℚ), a ≠ Cell.absent → b ≠ Cell.absent →
        jsNumber a = some x → jsNumber b = some y →
        ((cellCompare SortDir.asc a b < 0 ↔ x < y) ∧
         (cellCompare SortDir.asc a b = 0 ↔ x = y) ∧
         (cellCompare SortDir.desc a b < 0 ↔ y < x))) ∧
    (∀ a b : Cell, a ≠ Cell.absent → b ≠ Cell.absent →
        (jsNumber a = none ∨ jsNumber b = none) →
        ((cellCompare SortDir.asc a b < 0 ↔
            jsToLower (jsString a) < jsToLower (jsString b)) ∧
         (cellCompare SortDir.asc a b = 0 ↔
            jsToLower (jsString a) = jsToLower (jsString b)) ∧
         (cellCompare SortDir.desc a b < 0 ↔
            jsToLower (jsString b) < jsToLower (jsString a)))) ∧
    processedRows sortScenarioSheet "" (some 0) (some SortDir.asc) =
      [[Cell.absent, Cell.num 1], [Cell.str "a", Cell.num 3], [Cell.str "b", Cell.num 2]] := by
  refine ⟨fun dir ci a b => rfl, fun dir => rfl, ?_, ?_, ?_, by with_unfolding_all decide⟩
  · intro b hb
    rcases b with s | q | _
    · exact ⟨rfl, rfl, rfl, rfl⟩
    · exact ⟨rfl, rfl, rfl, rfl⟩
    · exact absurd rfl hb
  · intro a b x y ha hb hx hy
    rw [cellCompare_not_absent SortDir.asc a b ha hb,
      cellCompare_not_absent SortDir.desc a b ha hb, hx, hy]
    dsimp only
    refine ⟨?_, ?_, ?_⟩
    · rw [if_pos rfl, qsign_lt_iff, sub_neg]
    · rw [if_pos rfl, qsign_eq_iff, sub_eq_zero]
    · rw [if_neg (by decide), qsign_lt_iff, sub_neg]
  · intro a b ha hb hn
    rw [cellCompare_not_absent SortDir.asc a b ha hb,
      cellCompare_not_absent SortDir.desc a b ha hb]
    rcases h1 : jsNumber a with _ | x <;> rcases h2 : jsNumber b with _ | y <;> dsimp only
    · exact ⟨strAsc_lt_iff _ _, strAsc_eq_iff _ _, strDesc_lt_iff _ _⟩
    · exact ⟨strAsc_lt_iff _ _, strAsc_eq_iff _ _, strDesc_lt_iff _ _⟩
    · exact ⟨strAsc_lt_iff _ _, strAsc_eq_iff _ _, strDesc_lt_iff _ _⟩
    · rcases hn with h | h
      · exact absurd (h1.symm.trans h) (by simp)
      · exact absurd (h2.symm.trans h) (by simp)

/-- Witness for C3's conditional clauses at concrete cells. -/
theorem sort_comparator_spec_witness :
    (cellCompare SortDir.asc Cell.absent (Cell.str "x") = -1 ∧
     cellCompare SortDir.desc Cell.absent (Cell.str "x") = 1 ∧
     cellCompare SortDir.asc (Cell.str "x") Cell.absent = 1 ∧
     cellCompare SortDir.desc (Cell.str "x") Cell.absent = -1) ∧
    (cellCompare SortDir.asc (Cell.num 1) (Cell.num 2) < 0 ↔ (1 : ℚ) < 2) ∧
    (cellCompare SortDir.asc (Cell.str "b") (Cell.str "a") < 0 ↔
      jsToLower (jsString (Cell.str "b")) < jsToLower (jsString (Cell.str "a"))) :=
  ⟨sort_comparator_spec.2.2.1 (Cell.str "x") (by decide),
   (sort_comparator_spec.2.2.2.1 (Cell.num 1) (Cell.num 2) 1 2 (by decide) (by decide)
      rfl rfl).1,
   (sort_comparator_spec.2.2.2.2.1 (Cell.str "b") (Cell.str "a") (by decide) (by decide)
      (Or.inl (by with_unfolding_all decide))).1⟩

/-! ## Claim C10: sort state invariant and the toggle cycle -/

theorem axesEffect_preserve (dateValid : String → Bool) (st : AppState) :
    (axesEffect dateValid st).sortColumnIndex = st.sortColumnIndex ∧
    (axesEffect dateValid st).sortDirection = st.sortDirection ∧
    (axesEffect dateValid st).searchQuery = st.searchQuery ∧
    (axesEffect dateValid st).columnVisibility = st.columnVisibility ∧
    (axesEffect dateValid st).activeTab = st.activeTab ∧
    (axesEffect dateValid st).sheets = st.sheets ∧
    (axesEffect dateValid st).activeSheetIndex = st.activeSheetIndex := by
  unfold axesEffect
  cases h : activeSheet st
  · exact ⟨rfl, rfl, rfl, rfl, rfl, rfl, rfl⟩
  · dsimp only
    split
    · exact ⟨rfl, rfl, rfl, rfl, rfl, rfl, rfl⟩
    · exact ⟨rfl, rfl, rfl, rfl, rfl, rfl, rfl⟩

/-- C10: in every reachable state the sort column and the sort
direction are both set or both `null`; clicking the sorted column
cycles ascending to descending to cleared, and clicking any other
column starts an ascending sort on it. -/
theorem toggleSort_cycle_and_invariant (dateValid : String → Bool) :
    (∀ st, Reachable dateValid st → (st.sortColumnIndex = none ↔ st.sortDirection = none)) ∧
    (∀ (st : AppState) (i : Nat), st.sortColumnIndex = some i →
        st.sortDirection = some SortDir.asc →
        toggleSort st i = { st with sortDirection := some SortDir.desc }) ∧
    (∀ (st : AppState) (i : Nat), st.sortColumnIndex = some i →
        st.sortDirection = some SortDir.desc →
        toggleSort st i = { st with sortColumnIndex := none, sortDirection := none }) ∧
    (∀ (st : AppState) (i : Nat), st.sortColumnIndex ≠ some i →
        toggleSort st i =
          { st with sortColumnIndex := some i, sortDirection := some SortDir.asc }) := by
  refine ⟨?_, ?_, ?_, ?_⟩
  · intro st hr
    induction hr with
    | init => simp [initState]
    | step hr hs ih =>
        rename_i st stNext
        cases hs with
        | selectSheet i =>
            unfold selectSheet
            split
            · exact ih
            · rw [(axesEffect_preserve dateValid _).1, (axesEffect_preserve dateValid _).2.1]
              simp [resetEffect]
        | fileChange file read =>
            rcases file with _ | name
            · simpa using ih
            · dsimp only [handleFileSelect]
              split
              · simpa using ih
              · rcases read with raw | _
                · dsimp only
                  rw [(axesEffect_preserve dateValid _).1,
                    (axesEffect_preserve dateValid _).2.1]
                  split
                  · simpa using ih
                  · simp [resetEffect]
                · simpa using ih
        | setSearch q => simpa using ih
        | toggleSortStep i =>
            unfold toggleSort
            by_cases hcol : st.sortColumnIndex = some i
            · rw [if_pos hcol]
              by_cases hasc : st.sortDirection = some SortDir.asc
              · rw [if_pos hasc]
                simp [hcol]
              · rw [if_neg hasc]
                by_cases hdesc : st.sortDirection = some SortDir.desc
                · rw [if_pos hdesc]
                  simp
                · rw [if_neg hdesc]
                  simp [hcol]
            · rw [if_neg hcol]
              simp
        | toggleColumnStep i =>
            unfold toggleColumn
            split
            · exact ih
            · simpa using ih
        | showAll =>
            unfold showAllColumns
            cases h : activeSheet st
            · simpa using ih
            · simpa using ih
        | setTab t => simpa using ih
        | setCatAxis i => simpa using ih
        | setValAxis i => simpa using ih
  · intro st i h1 h2
    unfold toggleSort
    rw [if_pos h1, if_pos h2]
  · intro st i h1 h2
    unfold toggleSort
    rw [if_pos h1, if_neg (by simp [h2]), if_pos h2]
  · intro st i h1
    unfold toggleSort
    rw [if_neg h1]

/-- Witness for C10: the invariant at the initial state and one
concrete toggle. -/
theorem toggleSort_cycle_and_invariant_witness :
    (initState.sortColumnIndex = none ↔ initState.sortDirection = none) ∧
    toggleSort
        { initState with sortColumnIndex := some 0, sortDirection := some SortDir.asc } 0 =
      { initState with sortColumnIndex := some 0, sortDirection := some SortDir.desc } :=
  ⟨(toggleSort_cycle_and_invariant jsDateValid).1 initState Reachable.init,
   (toggleSort_cycle_and_invariant jsDateValid).2.1
      { initState with sortColumnIndex := some 0, sortDirection := some SortDir.asc } 0
      rfl rfl⟩

/-! ## Claims C1 and C6: the chart aggregator -/

/-- One aggregation step either skips the row or upserts its key-value
pair, according to `validRow`. -/
theorem chartStep_eq (ci vi : Nat) (m : List (String × ℚ)) (row : List Cell) :
    chartStep ci vi m row =
      if validRow ci vi row = true then mapInsertAdd m (rowKey ci row) (rowVal vi row)
      else m := by
  unfold chartStep validRow validCat rowKey rowVal
  rcases h : row.get? ci with _ | c
  · simp
  · rcases c with s | q | _
    · dsimp only
      by_cases hs : s = ""
      · subst hs
        rw [if_pos rfl]
        simp
      · rw [if_neg (by simp [hs])]
        rcases hv : jsNumberU (row.get? vi) with _ | n
        · simp [hs]
        · simp [hs]
    · rcases hv : jsNumberU (row.get? vi) with _ | n
      · simp
      · simp
    · simp

/-- The aggregation loop over the rows equals the upsert fold over the
key-value pairs of the contributing rows. -/
theorem foldl_chartStep (ci vi : Nat) :
    ∀ (rows : List (List Cell)) (m : List (String × ℚ)),
      rows.foldl (chartStep ci vi) m = (pairsOf ci vi rows).foldl insPair m
  | [], _ => rfl
  | r :: rows, m => by
      rw [List.foldl_cons, chartStep_eq]
      by_cases h : validRow ci vi r = true
      · rw [if_pos h]
        rw [foldl_chartStep ci vi rows]
        unfold pairsOf
        rw [List.filter_cons_of_pos h, List.map_cons, List.foldl_cons]
        rfl
      · rw [if_neg h]
        rw [foldl_chartStep ci vi rows]
        unfold pairsOf
        rw [List.filter_cons_of_neg (by simpa using h)]

theorem mapInsertAdd_of_mem (g : String → ℚ) (k : String) (v : ℚ) :
    ∀ (keys : List String), keys.Nodup → k ∈ keys →
      mapInsertAdd (keys.map (fun x => (x, g x))) k v =
        keys.map (fun x => (x, if x = k then g x + v else g x))
  | [], _, hmem => absurd hmem (List.not_mem_nil k)
  | x :: ks, hnd, hmem => by
      rcases List.nodup_cons.mp hnd with ⟨hx, hnd2⟩
      rw [List.map_cons, List.map_cons]
      by_cases hxk : x = k
      · subst hxk
        unfold mapInsertAdd
        rw [if_pos rfl, if_pos rfl]
        congr 1
        apply List.map_congr_left
        intro a ha
        have hax : ¬(a = x) := fun hax => hx (hax ▸ ha)
        rw [if_neg hax]
      · have hk : k ∈ ks := by
          rcases List.mem_cons.mp hmem with h | h
          · exact absurd h.symm hxk
          · exact h
        unfold mapInsertAdd
        rw [if_neg hxk, if_neg hxk, mapInsertAdd_of_mem g k v ks hnd2 hk]

theorem mapInsertAdd_of_not_mem (g : String → ℚ) (k : String) (v : ℚ) :
    ∀ (keys : List String), k ∉ keys →
      mapInsertAdd (keys.map (fun x => (x, g x))) k v =
        keys.map (fun x => (x, g x)) ++ [(k, v)]
  | [], _ => rfl
  | x :: ks, hmem => by
      have hxk : x ≠ k := fun h => hmem (h ▸ List.mem_cons_self x ks)
      have hk : k ∉ ks := fun h => hmem (List.mem_cons_of_mem x h)
      rw [List.map_cons]
      unfold mapInsertAdd
      rw [if_neg hxk, mapInsertAdd_of_not_mem g k v ks hk, List.cons_append]

theorem sumFor_append_singleton (l : List (String × ℚ)) (p : String × ℚ) (k : String) :
    sumFor (l ++ [p]) k = sumFor l k + (if p.1 = k then p.2 else 0) := by
  unfold sumFor
  rw [List.filter_append]
  by_cases h : p.1 = k
  · simp [h]
  · simp [h]

theorem sumFor_of_not_mem (l : List (String × ℚ)) (k : String)
    (h : k ∉ l.map Prod.fst) : sumFor l k = 0 := by
  unfold sumFor
  rw [List.filter_eq_nil_iff.mpr]
  · rfl
  · intro p hp
    simp only [decide_eq_true_eq]
    intro hk
    exact h (hk ▸ List.mem_map_of_mem Prod.fst hp)

/-- The upsert fold from the empty map builds exactly the spec's group
map: distinct keys in first-occurrence order, each with the sum of its
values. -/
theorem foldl_insPair_eq (l : List (String × ℚ)) : l.foldl insPair [] = assembled l := by
  induction l using List.reverseRecOn with
  | nil => rfl
  | append_singleton l p ih =>
      rw [List.foldl_append, List.foldl_cons, List.foldl_nil, ih]
      unfold assembled
      rw [List.map_append, List.map_singleton, firstDedup_append_singleton]
      unfold dedupStep
      by_cases hmem : p.1 ∈ firstDedup (List.map Prod.fst l)
      · rw [if_pos hmem]
        unfold insPair
        rw [mapInsertAdd_of_mem (sumFor l) p.1 p.2 _ (nodup_firstDedup _) hmem]
        apply List.map_congr_left
        intro k hk
        rw [sumFor_append_singleton]
        by_cases hpk : p.1 = k
        · rw [if_pos hpk, if_pos hpk.symm]
        · rw [if_neg hpk, if_neg (fun h => hpk h.symm), add_zero]
      · rw [if_neg hmem]
        unfold insPair
        rw [mapInsertAdd_of_not_mem (sumFor l) p.1 p.2 _ hmem, List.map_append]
        congr 1
        · apply List.map_congr_left
          intro k hk
          rw [sumFor_append_singleton]
          have hpk : p.1 ≠ k := fun h => hmem (h ▸ hk)
          rw [if_neg hpk, add_zero]
        · rw [List.map_singleton, sumFor_append_singleton,
            sumFor_of_not_mem l p.1 (fun h => hmem ((mem_firstDedup _ _).mpr h)),
            if_pos rfl, zero_add]

/-- The code's group map equals the spec's. -/
theorem chart_groupMap_eq (rows : List (List Cell)) (ci vi : Nat) :
    rows.foldl (chartStep ci vi) [] = groupSums rows ci vi := by
  rw [foldl_chartStep, foldl_insPair_eq]
  rfl

/-- C1: the chart aggregator is a single pass that skips exactly the
rows whose category cell is missing, absent or the empty string or
whose value cell does not convert to a number (`validRow`), sums the
numeric value per category string form (`groupSums`: first-occurrence
key order, one entry per distinct category, carrying the sum over that
category's contributing rows), then sorts descending by sum (stably)
and keeps the top 25; on the Region/Amount scenario it yields
`[("East", 13), ("West", 5)]`. -/
theorem chart_aggregation :
    (∀ (rows : List (List Cell)) (ci vi : Nat),
        chartData rows ci vi = ((groupSums rows ci vi).mergeSort chartLe).take 25) ∧
    chartData regionSheet.rows 0 1 = [("East", 13), ("West", 5)] := by
  constructor
  · intro rows ci vi
    unfold chartData
    rw [chart_groupMap_eq]
  · with_unfolding_all decide

/-- Sum of the values of a map after one upsert. -/
theorem mapInsertAdd_sum (k : String) (v : ℚ) :
    ∀ (m : List (String × ℚ)),
      ((mapInsertAdd m k v).map Prod.snd).sum = (m.map Prod.snd).sum + v
  | [] => by simp [mapInsertAdd]
  | p :: rest => by
      unfold mapInsertAdd
      by_cases h : p.1 = k
      · rw [if_pos h]
        simp only [List.map_cons, List.sum_cons]
        ring
      · rw [if_neg h]
        simp only [List.map_cons, List.sum_cons, mapInsertAdd_sum k v rest]
        ring

/-- Sum of the values of the map built by the upsert fold. -/
theorem foldl_insPair_sum :
    ∀ (l m : List (String × ℚ)),
      ((l.foldl insPair m).map Prod.snd).sum = (m.map Prod.snd).sum + (l.map Prod.snd).sum
  | [], m => by simp
  | p :: l, m => by
      rw [List.foldl_cons, foldl_insPair_sum l]
      unfold insPair
      rw [mapInsertAdd_sum]
      simp only [List.map_cons, List.sum_cons]
      ring

/-- C6 (corrected): the counterexample.  With 26 distinct categories of
value 1 each, the top-25 truncation drops one category, so the sum of
the emitted values (25) differs from the sum over all contributing rows
(26). -/
theorem chart_sum_cex :
    ((chartData manyCatRows 0 1).map Prod.snd).sum ≠
      ((manyCatRows.filter (validRow 0 1)).map (rowVal 1)).sum := by
  with_unfolding_all decide

/-- C6 (amended): when the contributing rows have at most 25 distinct
category keys, the sum of the emitted `value` fields equals the sum of
the numeric value cells over all contributing rows — no contributing
row is dropped and none is counted twice. -/
theorem chart_sum_preserved (rows : List (List Cell)) (ci vi : Nat)
    (hcount : (firstDedup ((rows.filter (validRow ci vi)).map (rowKey ci))).length ≤ 25) :
    ((chartData rows ci vi).map Prod.snd).sum =
      ((rows.filter (validRow ci vi)).map (rowVal vi)).sum := by
  unfold chartData
  rw [foldl_chartStep]
  have hkeys : ((pairsOf ci vi rows).foldl insPair []).length ≤ 25 := by
    rw [foldl_insPair_eq]
    unfold assembled
    rw [List.length_map]
    have : (pairsOf ci vi rows).map Prod.fst =
        (rows.filter (validRow ci vi)).map (rowKey ci) := by
      unfold pairsOf
      rw [List.map_map]
      rfl
    rw [this]
    exact hcount
  rw [List.take_of_length_le (by rw [List.length_mergeSort]; exact hkeys)]
  have hperm := (List.mergeSort_perm ((pairsOf ci vi rows).foldl insPair []) chartLe).map Prod.snd
  rw [hperm.sum_eq, foldl_insPair_sum]
  have : (pairsOf ci vi rows).map Prod.snd =
      (rows.filter (validRow ci vi)).map (rowVal vi) := by
    unfold pairsOf
    rw [List.map_map]
    rfl
  rw [this]
  simp

/-- Witness for C6's amended claim at the Region/Amount scenario. -/
theorem chart_sum_preserved_witness :
    ((chartData regionSheet.rows 0 1).map Prod.snd).sum =
      ((regionSheet.rows.filter (validRow 0 1)).map (rowVal 1)).sum :=
  chart_sum_preserved regionSheet.rows 0 1 (by with_unfolding_all decide)

/-! ## Claim C5: sort idempotence and direction toggling -/

theorem qsign_neg (x : ℚ) : qsign (-x) = - qsign x := by
  unfold qsign
  rcases lt_trichotomy x 0 with h | h | h
  · rw [if_neg (show ¬(-x < 0) by linarith), if_neg (show ¬(-x = 0) by simpa using h.ne),
      if_pos h]
    decide
  · subst h
    simp
  · rw [if_pos (show -x < 0 by linarith), if_neg (show ¬(x < 0) by linarith),
      if_neg (show ¬(x = 0) by simpa using h.ne.symm)]

theorem strBranch_swap (dir : SortDir) (A B : String) :
    (if B = A then (0 : Int)
     else if dir = SortDir.asc then (if B < A then -1 else 1)
     else (if B > A then -1 else 1)) =
    - (if A = B then (0 : Int)
       else if dir = SortDir.asc then (if A < B then -1 else 1)
       else (if A > B then -1 else 1)) := by
  have haa : SortDir.asc = SortDir.asc := rfl
  have hda : ¬(SortDir.desc = SortDir.asc) := by decide
  simp only [gt_iff_lt]
  rcases lt_trichotomy A B with h | h | h
  · rw [if_neg (show ¬(B = A) from fun he => h.ne he.symm), if_neg h.ne]
    cases dir
    · rw [if_pos haa, if_neg (lt_asymm h), if_pos haa, if_pos h]
      decide
    · rw [if_neg hda, if_pos h, if_neg hda, if_neg (lt_asymm h)]
  · subst h
    rw [if_pos (rfl : A = A)]
    decide
  · rw [if_neg h.ne, if_neg (show ¬(A = B) from fun he => h.ne he.symm)]
    cases dir
    · rw [if_pos haa, if_pos h, if_pos haa, if_neg (lt_asymm h)]
    · rw [if_neg hda, if_neg (lt_asymm h), if_neg hda, if_pos h]
      decide

/-- The comparator is antisymmetric: swapping the rows negates it. -/
theorem cellCompare_swap (dir : SortDir) (a b : Cell) :
    cellCompare dir b a = - cellCompare dir a b := by
  by_cases ha : a = Cell.absent <;> by_cases hb : b = Cell.absent
  · subst ha
    subst hb
    rfl
  · subst ha
    rcases b with t | r | _
    · cases dir <;> rfl
    · cases dir <;> rfl
    · exact absurd rfl hb
  · subst hb
    rcases a with s | q | _
    · cases dir <;> rfl
    · cases dir <;> rfl
    · exact absurd rfl ha
  · rw [cellCompare_not_absent dir b a hb ha, cellCompare_not_absent dir a b ha hb]
    rcases h1 : jsNumber a with _ | x <;> rcases h2 : jsNumber b with _ | y <;> dsimp only
    · exact strBranch_swap dir _ _
    · exact strBranch_swap dir _ _
    · exact strBranch_swap dir _ _
    · have haa : SortDir.asc = SortDir.asc := rfl
      have hda : ¬(SortDir.desc = SortDir.asc) := by decide
      cases dir
      · rw [if_pos haa, if_pos haa,
          show y - x = -(x - y) from (neg_sub x y).symm, qsign_neg]
      · rw [if_neg hda, if_neg hda,
          show x - y = -(y - x) from (neg_sub y x).symm, qsign_neg]

theorem rowCompare_swap (dir : SortDir) (ci : Nat) (a b : List Cell) :
    rowCompare dir ci b a = - rowCompare dir ci a b :=
  cellCompare_swap dir _ _

/-- Toggling the direction is the same as swapping the compared rows. -/
theorem cellCompare_flip (a b : Cell) :
    cellCompare SortDir.desc a b = cellCompare SortDir.asc b a := by
  by_cases ha : a = Cell.absent <;> by_cases hb : b = Cell.absent
  · subst ha
    subst hb
    rfl
  · subst ha
    rcases b with t | r | _
    · rfl
    · rfl
    · exact absurd rfl hb
  · subst hb
    rcases a with s | q | _
    · rfl
    · rfl
    · exact absurd rfl ha
  · rw [cellCompare_not_absent SortDir.desc a b ha hb,
      cellCompare_not_absent SortDir.asc b a hb ha]
    have haa : SortDir.asc = SortDir.asc := rfl
    have hda : ¬(SortDir.desc = SortDir.asc) := by decide
    have hstr : (if jsToLower (jsString a) = jsToLower (jsString b) then (0 : Int)
        else if SortDir.desc = SortDir.asc then
          (if jsToLower (jsString a) < jsToLower (jsString b) then -1 else 1)
        else (if jsToLower (jsString a) > jsToLower (jsString b) then -1 else 1)) =
        (if jsToLower (jsString b) = jsToLower (jsString a) then (0 : Int)
        else if SortDir.asc = SortDir.asc then
          (if jsToLower (jsString b) < jsToLower (jsString a) then -1 else 1)
        else (if jsToLower (jsString b) > jsToLower (jsString a) then -1 else 1)) := by
      simp only [gt_iff_lt]
      by_cases heq : jsToLower (jsString a) = jsToLower (jsString b)
      · rw [if_pos heq, if_pos heq.symm]
      · rw [if_neg heq, if_neg hda,
          if_neg (show ¬(jsToLower (jsString b) = jsToLower (jsString a)) from
            fun h => heq h.symm)]
        simp
    rcases h1 : jsNumber a with _ | x <;> rcases h2 : jsNumber b with _ | y <;> dsimp only
    · exact hstr
    · exact hstr
    · exact hstr
    · rw [if_neg hda, if_pos haa]

theorem rowCompare_flip (ci : Nat) (a b : List Cell) :
    rowCompare SortDir.desc ci a b = rowCompare SortDir.asc ci b a :=
  cellCompare_flip _ _

/-- Local version of `sorted_mergeSort`: transitivity and totality on
the list's own elements suffice for the output to be pairwise
ordered. -/
theorem pairwise_mergeSort_local {α : Type} {le : α → α → Bool} {l : List α}
    (htrans : ∀ a ∈ l, ∀ b ∈ l, ∀ c ∈ l, le a b = true → le b c = true → le a c = true)
    (htotal : ∀ a ∈ l, ∀ b ∈ l, le a b = true ∨ le b a = true) :
    (l.mergeSort le).Pairwise (fun a b => le a b = true) := by
  have hsorted : (l.attach.mergeSort (fun a b => le a.1 b.1)).Pairwise
      (fun a b => le a.1 b.1 = true) :=
    List.sorted_mergeSort
      (fun a b c hab hbc => htrans a.1 a.2 b.1 b.2 c.1 c.2 hab hbc)
      (fun a b => by
        rcases htotal a.1 a.2 b.1 b.2 with h | h
        · simp [h]
        · simp [h])
      l.attach
  have hmap : (l.attach.mergeSort (fun a b => le a.1 b.1)).map Subtype.val =
      (l.attach.map Subtype.val).mergeSort le :=
    List.map_mergeSort (fun a _ b _ => rfl)
  rw [List.attach_map_subtype_val] at hmap
  rw [← hmap]
  exact hsorted.map Subtype.val (fun a b h => h)

/-- In a pairwise-ordered list, an element strictly below another (in
the Boolean order) only occurs at strictly earlier positions. -/
theorem pairwise_before {α : Type} {le : α → α → Bool} {l : List α}
    (hp : l.Pairwise (fun a b => le a b = true)) {x y : α}
    (hxy : ¬ le y x = true) (hne : x ≠ y) :
    ∀ (i j : Fin l.length), l.get i = x → l.get j = y → i < j := by
  intro i j hix hjy
  rcases lt_trichotomy i j with h | h | h
  · exact h
  · exact absurd (by rw [← hix, h, hjy]) hne
  · exact absurd ((List.pairwise_iff_get.mp hp) j i h ▸ by rw [hjy, hix]) hxy

/-- Idempotence of the sort under local transitivity of the
comparator. -/
theorem sortRows_idem (dir : SortDir) (ci : Nat) (rows : List (List Cell))
    (htrans : ∀ a ∈ rows, ∀ b ∈ rows, ∀ c ∈ rows,
        rowCompare dir ci a b ≤ 0 → rowCompare dir ci b c ≤ 0 → rowCompare dir ci a c ≤ 0) :
    sortRows dir ci (sortRows dir ci rows) = sortRows dir ci rows := by
  unfold sortRows
  apply List.mergeSort_of_sorted
  apply pairwise_mergeSort_local
  · intro a ha b hb c hc hab hbc
    simp only [decide_eq_true_iff] at hab hbc ⊢
    exact htrans a ha b hb c hc hab hbc
  · intro a ha b hb
    have hs := rowCompare_swap dir ci a b
    simp only [decide_eq_true_iff]
    omega

/-- C5 (corrected): the counterexample, refuting both conjuncts of the
claim.  Idempotence: on the mixed column `["2", "10", "1a"]` the
comparator is cyclic ("2" below "10" numerically, "10" below "1a" as
strings, "1a" below "2" as strings), and sorting ascending once yields
`[1a, 2, 10]` while sorting twice yields `[10, 1a, 2]` — sorting twice
differs from sorting once.  Reversal: two rows with equal numeric sort
keys (a same-mode-comparable pair) keep their original relative order
under both directions, so toggling the direction does not reverse
them. -/
theorem sort_toggle_cex :
    sortRows SortDir.asc 0 cycleRows =
      [[Cell.str "1a"], [Cell.str "2"], [Cell.str "10"]] ∧
    sortRows SortDir.asc 0 (sortRows SortDir.asc 0 cycleRows) =
      [[Cell.str "10"], [Cell.str "1a"], [Cell.str "2"]] ∧
    sortRows SortDir.asc 0 (sortRows SortDir.asc 0 cycleRows) ≠
      sortRows SortDir.asc 0 cycleRows ∧
    sortRows SortDir.asc 0 [tieRowP, tieRowQ] = [tieRowP, tieRowQ] ∧
    sortRows SortDir.desc 0 [tieRowP, tieRowQ] = [tieRowP, tieRowQ] ∧
    tieRowP ≠ tieRowQ := by
  refine ⟨by with_unfolding_all decide, by with_unfolding_all decide,
    by with_unfolding_all decide, by with_unfolding_all decide,
    by with_unfolding_all decide, by decide⟩

/-- C5 (amended): when the ascending comparator is transitive on the
rows being sorted (in particular when the sort column's compared values
are pairwise same-mode — on mixed columns it can be cyclic, see the
counterexample), sorting twice with the same column and direction
equals sorting once; and toggling the direction reverses the relative
order of every pair of rows whose compared values are strictly
ordered: every occurrence of the smaller row precedes every occurrence
of the larger one ascending, and follows it descending. -/
theorem sort_toggle_props (ci : Nat) (rows : List (List Cell))
    (htrans : ∀ a ∈ rows, ∀ b ∈ rows, ∀ c ∈ rows,
        rowCompare SortDir.asc ci a b ≤ 0 → rowCompare SortDir.asc ci b c ≤ 0 →
        rowCompare SortDir.asc ci a c ≤ 0) :
    (∀ dir : SortDir, sortRows dir ci (sortRows dir ci rows) = sortRows dir ci rows) ∧
    (∀ x ∈ rows, ∀ y ∈ rows, rowCompare SortDir.asc ci x y < 0 →
        (∀ (i j : Fin (sortRows SortDir.asc ci rows).length),
            (sortRows SortDir.asc ci rows).get i = x →
            (sortRows SortDir.asc ci rows).get j = y → i < j) ∧
        (∀ (i j : Fin (sortRows SortDir.desc ci rows).length),
            (sortRows SortDir.desc ci rows).get i = y →
            (sortRows SortDir.desc ci rows).get j = x → i < j)) := by
  have htransD : ∀ a ∈ rows, ∀ b ∈ rows, ∀ c ∈ rows,
      rowCompare SortDir.desc ci a b ≤ 0 → rowCompare SortDir.desc ci b c ≤ 0 →
      rowCompare SortDir.desc ci a c ≤ 0 := by
    intro a ha b hb c hc hab hbc
    rw [rowCompare_flip] at hab hbc ⊢
    exact htrans c hc b hb a ha hbc hab
  have htotal : ∀ (dir : SortDir), ∀ a ∈ rows, ∀ b ∈ rows,
      decide (rowCompare dir ci a b ≤ 0) = true ∨
      decide (rowCompare dir ci b a ≤ 0) = true := by
    intro dir a _ b _
    have hs := rowCompare_swap dir ci a b
    simp only [decide_eq_true_iff]
    omega
  have hpA : (sortRows SortDir.asc ci rows).Pairwise
      (fun a b => decide (rowCompare SortDir.asc ci a b ≤ 0) = true) := by
    apply pairwise_mergeSort_local
    · intro a ha b hb c hc hab hbc
      simp only [decide_eq_true_iff] at hab hbc ⊢
      exact htrans a ha b hb c hc hab hbc
    · exact htotal SortDir.asc
  have hpD : (sortRows SortDir.desc ci rows).Pairwise
      (fun a b => decide (rowCompare SortDir.desc ci a b ≤ 0) = true) := by
    apply pairwise_mergeSort_local
    · intro a ha b hb c hc hab hbc
      simp only [decide_eq_true_iff] at hab hbc ⊢
      exact htransD a ha b hb c hc hab hbc
    · exact htotal SortDir.desc
  constructor
  · intro dir
    cases dir
    · exact sortRows_idem SortDir.asc ci rows htrans
    · exact sortRows_idem SortDir.desc ci rows htransD
  · intro x hx y hy hxy
    have hne : x ≠ y := by
      intro h
      subst h
      have hs := rowCompare_swap SortDir.asc ci x x
      omega
    constructor
    · apply pairwise_before hpA
      · have hs := rowCompare_swap SortDir.asc ci x y
        simp only [decide_eq_true_iff]
        omega
      · exact hne
    · apply pairwise_before hpD
      · have hs := rowCompare_swap SortDir.asc ci x y
        rw [decide_eq_true_iff, rowCompare_flip]
        omega
      · exact hne.symm

/-- Witness for C5's amended claim on a numeric column. -/
theorem sort_toggle_props_witness :
    sortRows SortDir.asc 0 (sortRows SortDir.asc 0 [[Cell.num 2], [Cell.num 1]]) =
      sortRows SortDir.asc 0 [[Cell.num 2], [Cell.num 1]] :=
  (sort_toggle_props 0 [[Cell.num 2], [Cell.num 1]]
      (by with_unfolding_all decide)).1 SortDir.asc

/-! ## Claim C9: the sheet-change reset -/

/-- The chart axes computed by the axes effect right after a reset. -/
theorem axesEffect_reset_axes (dateValid : String → Bool) (st1 : AppState) :
    (axesEffect dateValid (resetEffect st1)).chartCategoryIndex =
      defaultCatAxis dateValid (activeSheet st1) ∧
    (axesEffect dateValid (resetEffect st1)).chartValueIndex =
      defaultValAxis dateValid (activeSheet st1) := by
  have hsheet : activeSheet (resetEffect st1) = activeSheet st1 := rfl
  unfold axesEffect defaultCatAxis defaultValAxis
  rw [hsheet]
  cases h : activeSheet st1
  · exact ⟨rfl, rfl⟩
  · rename_i sh
    dsimp only
    by_cases hty : (columnTypes dateValid sh).isEmpty = true <;> simp [hty, resetEffect]

/-- C9 (corrected): the counterexample.  Load workbook A (one sheet),
type "x" into the search box, then load workbook B (also one sheet)
while sheet 0 is active: the reset effect's dependencies
`[activeSheetIndex, sheets.length]` are unchanged, so the new workbook
is displayed with the old search string still set. -/
theorem sheet_reset_cex :
    loadedB.sheets =
      [parseSheet "SheetB" [[some (Cell.str "City"), some (Cell.str "Pop")],
        [some (Cell.str "Rome"), some (Cell.num 7)]]] ∧
    loadedB.searchQuery = "x" := by
  constructor <;> with_unfolding_all decide

/-- C9 (amended): switching to a different sheet index always resets
the view state (search cleared, sort cleared, all columns of the new
sheet visible, tab back to the table, chart axes recomputed for the new
sheet); loading a workbook resets it only when the pair
`(activeSheetIndex, sheets.length)` changes — a new workbook with the
same sheet count loaded while sheet 0 is active keeps the previous
search, sort and column-visibility state. -/
theorem sheet_change_reset (dateValid : String → Bool) :
    (∀ (st : AppState) (i : Nat), i ≠ st.activeSheetIndex →
        (selectSheet dateValid st i).searchQuery = "" ∧
        (selectSheet dateValid st i).sortColumnIndex = none ∧
        (selectSheet dateValid st i).sortDirection = none ∧
        (selectSheet dateValid st i).activeTab = TabId.table ∧
        (selectSheet dateValid st i).columnVisibility =
          (match st.sheets.get? i with
           | some sh => List.replicate sh.headers.length true
           | none => []) ∧
        (selectSheet dateValid st i).chartCategoryIndex =
          defaultCatAxis dateValid (st.sheets.get? i) ∧
        (selectSheet dateValid st i).chartValueIndex =
          defaultValAxis dateValid (st.sheets.get? i)) ∧
    (∀ (st : AppState) (name : String) (raw : List (String × List (List (Option Cell)))),
        extOk name = true →
        ¬(st.activeSheetIndex = 0 ∧
            st.sheets.length = (raw.map (fun nd => parseSheet nd.1 nd.2)).length) →
        (handleFileSelect dateValid st (some name) (ReadOutcome.ok raw)).sheets =
          raw.map (fun nd => parseSheet nd.1 nd.2) ∧
        (handleFileSelect dateValid st (some name) (ReadOutcome.ok raw)).activeSheetIndex = 0 ∧
        (handleFileSelect dateValid st (some name) (ReadOutcome.ok raw)).searchQuery = "" ∧
        (handleFileSelect dateValid st (some name) (ReadOutcome.ok raw)).sortColumnIndex = none ∧
        (handleFileSelect dateValid st (some name) (ReadOutcome.ok raw)).sortDirection = none ∧
        (handleFileSelect dateValid st (some name) (ReadOutcome.ok raw)).activeTab = TabId.table ∧
        (handleFileSelect dateValid st (some name) (ReadOutcome.ok raw)).columnVisibility =
          (match (raw.map (fun nd => parseSheet nd.1 nd.2)).get? 0 with
           | some sh => List.replicate sh.headers.length true
           | none => []) ∧
        (handleFileSelect dateValid st (some name) (ReadOutcome.ok raw)).chartCategoryIndex =
          defaultCatAxis dateValid ((raw.map (fun nd => parseSheet nd.1 nd.2)).get? 0) ∧
        (handleFileSelect dateValid st (some name) (ReadOutcome.ok raw)).chartValueIndex =
          defaultValAxis dateValid ((raw.map (fun nd => parseSheet nd.1 nd.2)).get? 0)) := by
  constructor
  · intro st i hne
    unfold selectSheet
    rw [if_neg hne]
    have hp := axesEffect_preserve dateValid (resetEffect { st with activeSheetIndex := i })
    have hax := axesEffect_reset_axes dateValid { st with activeSheetIndex := i }
    refine ⟨?_, ?_, ?_, ?_, ?_, hax.1, hax.2⟩
    · rw [hp.2.2.1]
      rfl
    · rw [hp.1]
      rfl
    · rw [hp.2.1]
      rfl
    · rw [hp.2.2.2.2.1]
      rfl
    · rw [hp.2.2.2.1]
      rfl
  · intro st name raw hok hdeps
    unfold handleFileSelect
    dsimp only
    rw [if_neg (not_not_intro hok)]
    rw [if_neg hdeps]
    have hp := axesEffect_preserve dateValid
      (resetEffect { st with
        error := none, fileName := some name,
        sheets := raw.map (fun nd => parseSheet nd.1 nd.2), activeSheetIndex := 0 })
    have hax := axesEffect_reset_axes dateValid
      { st with
        error := none, fileName := some name,
        sheets := raw.map (fun nd => parseSheet nd.1 nd.2), activeSheetIndex := 0 }
    refine ⟨?_, ?_, ?_, ?_, ?_, ?_, ?_, hax.1, hax.2⟩
    · rw [hp.2.2.2.2.2.1]
      rfl
    · rw [hp.2.2.2.2.2.2]
      rfl
    · rw [hp.2.2.1]
      rfl
    · rw [hp.1]
      rfl
    · rw [hp.2.1]
      rfl
    · rw [hp.2.2.2.2.1]
      rfl
    · rw [hp.2.2.2.1]
      rfl

/-- Witness for C9's amended claim: switching from the initial state to
sheet index 1. -/
theorem sheet_change_reset_witness :
    (selectSheet jsDateValid initState 1).searchQuery = "" ∧
    (selectSheet jsDateValid initState 1).sortColumnIndex = none ∧
    (selectSheet jsDateValid initState 1).sortDirection = none ∧
    (selectSheet jsDateValid initState 1).activeTab = TabId.table ∧
    (selectSheet jsDateValid initState 1).columnVisibility =
      (match initState.sheets.get? 1 with
       | some sh => List.replicate sh.headers.length true
       | none => []) ∧
    (selectSheet jsDateValid initState 1).chartCategoryIndex =
      defaultCatAxis jsDateValid (initState.sheets.get? 1) ∧
    (selectSheet jsDateValid initState 1).chartValueIndex =
      defaultValAxis jsDateValid (initState.sheets.get? 1) :=
  (sheet_change_reset jsDateValid).1 initState 1 (by decide)

end ExcelUI
